import Mathlib

/-!
Shallow embedding of the Background-Removal Streamlit app (src/code_1.py).

The script wires together: an upload decode step (`PIL.Image.open`), a
background-removal adapter (`remove_background_from_bytes`, memoized with
`@st.cache_data`), and a download encoder (JPEG with white flattening via
`Image.paste`, or PNG saved directly).  External collaborators (the PIL
decoder, the `rembg` capability, the image codecs) are passed in as
parameters or modelled by their documented behaviour; everything the
repository's own code does is translated directly from the source.
-/

namespace BGApp

/-- PIL color modes that can reach this pipeline (uploads are jpg/jpeg/png,
so `RGB`, `RGBA`, `LA` and `L` all occur).  `RGBA` and `LA` carry an alpha
channel. -/
inductive Mode where
  | RGB
  | RGBA
  | LA
  | L
deriving DecidableEq

/-- Number of channels per pixel for each mode. -/
def channelCount : Mode → Nat
  | .RGB => 3
  | .RGBA => 4
  | .LA => 2
  | .L => 1

/-- An in-memory PIL image: a mode plus a flat list of pixels, each pixel a
list of channel values (0..255). -/
structure Img where
  mode : Mode
  data : List (List Nat)
deriving DecidableEq

/-- Whether a mode carries an alpha channel. -/
def modeHasAlpha : Mode → Bool
  | .RGBA => true
  | .LA => true
  | _ => false

/-- The alpha channel of an image, when its mode has one (channel 3 of RGBA,
channel 1 of LA). -/
def alphaChannel (img : Img) : Option (List Nat) :=
  match img.mode with
  | .RGBA => some (img.data.map (fun p => p.getD 3 0))
  | .LA => some (img.data.map (fun p => p.getD 1 0))
  | _ => none

/-- All pixels have the mode's channel count and 8-bit channel values. -/
def wellFormedImg (img : Img) : Prop :=
  ∀ p ∈ img.data, p.length = channelCount img.mode ∧ ∀ c ∈ p, c ≤ 255

instance (img : Img) : Decidable (wellFormedImg img) := by
  unfold wellFormedImg; exact inferInstance

/-! ### Pillow paste blending (Paste.c)

`bg.paste(output_image, mask=alpha)` blends each destination channel with
the source channel using Pillow's integer arithmetic:
`MULDIV255(a, b) = (t = a*b + 128; ((t >> 8) + t) >> 8)` and
`BLEND(mask, dst, src) = MULDIV255(dst, 255 - mask) + MULDIV255(src, mask)`. -/

/-- Pillow's `MULDIV255` integer approximation of `round(a*b/255)`. -/
def muldiv255 (a b : Nat) : Nat :=
  ((a * b + 128) / 256 + (a * b + 128)) / 256

/-- Pillow's `BLEND(mask, dst, src)` from Paste.c. -/
def blend (mask dst src : Nat) : Nat :=
  muldiv255 dst (255 - mask) + muldiv255 src mask

/-- The spec's per-channel LOSSY value, `round(fg*a + 255*(1-a))` with alpha
scaled to 0..255: `round((fg*a + 255*(255-a))/255)`.  No exact halves occur
(255 is odd), so round-half-up equals `(x + 127) / 255`. -/
def specLossyPixelValue (fg a : Nat) : Nat :=
  (fg * a + 255 * (255 - a) + 127) / 255

/-- One output pixel of `bg.paste(output_image, mask=output_image.split()[3])`
on a white background: channels 0..2 blended with white (255) using channel 3
as the mask. -/
def flattenPixelOnWhite (p : List Nat) : List Nat :=
  [blend (p.getD 3 0) 255 (p.getD 0 0),
   blend (p.getD 3 0) 255 (p.getD 1 0),
   blend (p.getD 3 0) 255 (p.getD 2 0)]

/-- The RGBA branch of the JPEG save: paste onto a white RGB background using
the alpha channel as mask, giving an RGB image. -/
def flattenOnWhite (img : Img) : Img :=
  ⟨.RGB, img.data.map flattenPixelOnWhite⟩

/-- Pillow `convert('RGB')` per pixel: RGBA drops alpha, LA/L replicate the
luminance and drop any alpha; no background compositing happens. -/
def convertRGBPixel (m : Mode) (p : List Nat) : List Nat :=
  match m with
  | .RGB => p
  | .RGBA => p.take 3
  | .LA => [p.getD 0 0, p.getD 0 0, p.getD 0 0]
  | .L => [p.getD 0 0, p.getD 0 0, p.getD 0 0]

/-- Pillow `img.convert('RGB')`. -/
def convertRGB (img : Img) : Img :=
  ⟨.RGB, img.data.map (convertRGBPixel img.mode)⟩

/-! ### Download format, filename and MIME derivation (lines 82-110) -/

/-- The `st.selectbox` choices `["PNG", "JPG"]`. -/
inductive DownloadFormat where
  | PNG
  | JPG
deriving DecidableEq

/-- The selectbox string for each choice. -/
def formatStr : DownloadFormat → String
  | .PNG => "PNG"
  | .JPG => "JPG"

/-- ASCII lowercasing of one character (Python `str.lower` restricted to the
ASCII strings that occur here). -/
def asciiLowerChar (c : Char) : Char :=
  if 'A' ≤ c ∧ c ≤ 'Z' then Char.ofNat (c.toNat + 32) else c

/-- Python `s.lower()` on the ASCII strings used by the script. -/
def pyLower (s : String) : String := String.mk (s.data.map asciiLowerChar)

/-- `download_format.lower()`. -/
def downloadExt (fmt : DownloadFormat) : String := pyLower (formatStr fmt)

/-- Python `str.rfind`: index of the last occurrence of `c`, `-1` if absent. -/
def rfind (l : List Char) (c : Char) : Int :=
  match l.reverse.findIdx? (fun x => x == c) with
  | some i => (l.length : Int) - 1 - i
  | none => -1

/-- Python `os.path.splitext` (posixpath): split off the extension at the last
dot, unless every character of the basename before that dot is a dot. -/
def splitext (s : String) : String × String :=
  let l := s.data
  let sep := rfind l '/'
  let dot := rfind l '.'
  if sep < dot then
    let start := (sep + 1).toNat
    let dotN := dot.toNat
    if ((l.drop start).take (dotN - start)).any (fun c => c != '.') then
      (String.mk (l.take dotN), String.mk (l.drop dotN))
    else (s, "")
  else (s, "")

/-- Line 87: `f"bg_removed_{os.path.splitext(uploaded_file.name)[0]}.{download_format.lower()}"`. -/
def outputFilename (name : String) (fmt : DownloadFormat) : String :=
  "bg_removed_" ++ (splitext name).1 ++ "." ++ downloadExt fmt

/-- The Pillow save format string. -/
inductive SaveFormat where
  | JPEG
  | PNG
deriving DecidableEq

/-- Line 88: `'JPEG' if download_format == 'JPG' else 'PNG'`. -/
def saveFormatOf (fmt : DownloadFormat) : SaveFormat :=
  if fmt = DownloadFormat.JPG then .JPEG else .PNG

/-- The `quality` keyword passed to `save`: 95 on both JPEG branches, absent
for PNG. -/
def jpegQualityOf (fmt : DownloadFormat) : Option Nat :=
  match saveFormatOf fmt with
  | .JPEG => some 95
  | .PNG => none

/-- Line 108: `f"image/{download_format.lower()}"`. -/
def mimeOf (fmt : DownloadFormat) : String := "image/" ++ downloadExt fmt

/-- The image handed to `save` (lines 91-102): JPEG with an RGBA image is
flattened onto white, JPEG otherwise is `convert('RGB')`, PNG is saved
directly with no conversion. -/
def preparedForSave (img : Img) (fmt : DownloadFormat) : Img :=
  match saveFormatOf fmt with
  | .JPEG => if img.mode = Mode.RGBA then flattenOnWhite img else convertRGB img
  | .PNG => img

/-- What a PNG file records.  The PNG codec itself is the external Pillow
encoder; PNG is a lossless format, so it is modelled as storing the mode and
pixel data exactly. -/
structure PNGStored where
  mode : Mode
  data : List (List Nat)
deriving DecidableEq

/-- Encoding through the lossless PNG codec. -/
def pngStore (img : Img) : PNGStored := ⟨img.mode, img.data⟩

/-- Decoding a stored PNG back to an image. -/
def pngLoad (f : PNGStored) : Img := ⟨f.mode, f.data⟩

/-! ### The removal capability and adapter (lines 5-15 and 29-40) -/

/-- The `remove` name in scope: either the fallback defined when importing
`rembg` fails, or the real `rembg.remove`, an arbitrary external function
that may raise (modelled as `Except`). -/
inductive Capability where
  | unavailable
  | available (f : Img → Except String Img)

/-- The `st.error` text issued by the fallback `remove`. -/
def placeholderMsg : String :=
  "`rembg` library not found. Background removal placeholder active."

/-- The `st.error` text of the adapter's `except` branch, for exception `e`. -/
def removalErrMsg (e : String) : String :=
  "Error during background removal: " ++ e

/-- The `st.error` text shown when the adapter returned `None`. -/
def couldNotProcessMsg : String :=
  "Could not process the image. Please try another one or check the logs."

/-- The `st.error` text of the download `except` branch, for exception `e`. -/
def downloadErrMsg (e : String) : String :=
  "Error preparing download: " ++ e

/-- Lines 11-15: the fallback `remove` reports an error and returns its
argument unchanged (it never raises). -/
def fallbackRemove (img : Img) : List String × Img :=
  ([placeholderMsg], img)

/-- Calling the `remove` name: emitted messages plus normal return or raise. -/
def removeCall (cap : Capability) (img : Img) : List String × Except String Img :=
  match cap with
  | .unavailable =>
    let r := fallbackRemove img
    (r.1, Except.ok r.2)
  | .available f => ([], f img)

/-- Lines 30-40, `remove_background_from_bytes` without the cache decorator:
`try: return remove(x) except Exception as e: st.error(...); return None`. -/
def removeBackgroundFromBytes (cap : Capability) (img : Img) :
    List String × Option Img :=
  let r := removeCall cap img
  match r.2 with
  | .ok o => (r.1, some o)
  | .error e => (r.1 ++ [removalErrMsg e], none)

/-- The sequence of arguments passed to `remove` during one execution of the
adapter body: the body has a single call site and no loop or retry, so the
capability is applied exactly once, to the adapter's argument. -/
def removalAttempts (cap : Capability) (img : Img) : List Img :=
  match cap with
  | .unavailable => [img]
  | .available _ => [img]

/-- State of `@st.cache_data` for `remove_background_from_bytes`.  Streamlit
excludes parameters whose names begin with an underscore from the cache key;
the function's only parameter is `_image_bytes`, so the key is constant and
the cache is a single optional entry holding the replayed messages and the
return value of the first computation. -/
abbrev CacheState := Option (List String × Option Img)

/-- The decorated `remove_background_from_bytes`: any cached entry is
returned (and its messages replayed) regardless of the argument; on a miss
the body runs and its result is stored. -/
def cachedRemoveBackground (cap : Capability) (cache : CacheState) (img : Img) :
    (List String × Option Img) × CacheState :=
  match cache with
  | some v => (v, some v)
  | none =>
    let r := removeBackgroundFromBytes cap img
    (r, some r)

/-! ### One top-to-bottom run of the script (lines 48-116) -/

/-- An uploaded file: name and raw bytes. -/
structure Upload where
  name : String
  bytes : List Nat
deriving DecidableEq

/-- The payload of `st.download_button`. -/
structure Download where
  data : List Nat
  fileName : String
  mime : String
deriving DecidableEq

/-- What one script run rendered: `st.error` texts in order, `st.info` texts,
the image of each panel, and the download button's payload if reached. -/
structure UIState where
  errors : List String
  infos : List String
  originalImage : Option Img
  processedImage : Option Img
  download : Option Download
deriving DecidableEq

/-- An exception that escapes the script (nothing in the script catches the
decode step, so `Image.open` failures abort the run). -/
inductive PipelineCrash where
  | decodeException
deriving DecidableEq

/-- The `st.info` text shown when no file is uploaded. -/
def startInfoMsg : String := "☝️ Upload an image file to get started."

/-- One top-to-bottom execution of the script body.  `dec` is the external
`Image.open` decoder (`none` = raises), `cap` the `remove` name in scope,
`saveFn` the external Pillow encoder invoked by `save` (fallible), `cache`
the `st.cache_data` state, `upload` the uploader's value and `fmt` the
selectbox value.  Returns the rendered UI (or the escaped exception) and the
new cache state. -/
def runScript (dec : List Nat → Option Img) (cap : Capability)
    (saveFn : Img → SaveFormat → Option Nat → Except String (List Nat))
    (cache : CacheState) (upload : Option Upload) (fmt : DownloadFormat) :
    Except PipelineCrash UIState × CacheState :=
  match upload with
  | none => (Except.ok ⟨[], [startInfoMsg], none, none, none⟩, cache)
  | some u =>
    match dec u.bytes with
    | none => (Except.error PipelineCrash.decodeException, cache)
    | some inputImage =>
      let step := cachedRemoveBackground cap cache inputImage
      let msgs := step.1.1
      let cache' := step.2
      match step.1.2 with
      | some o =>
        match saveFn (preparedForSave o fmt) (saveFormatOf fmt) (jpegQualityOf fmt) with
        | .ok bs =>
          (Except.ok ⟨msgs, [], some inputImage, some o,
             some ⟨bs, outputFilename u.name fmt, mimeOf fmt⟩⟩, cache')
        | .error e =>
          (Except.ok ⟨msgs ++ [downloadErrMsg e], [], some inputImage, some o, none⟩,
           cache')
      | none =>
        (Except.ok ⟨msgs ++ [couldNotProcessMsg], [], some inputImage, none, none⟩,
         cache')

end BGApp

open BGApp

/-- Pillow's white-background blend is within 1 of the spec's rounded
compositing formula, for every 8-bit foreground value and alpha. -/
theorem BGApp.blend_white_close (fg a : Nat) (hfg : fg ≤ 255) (ha : a ≤ 255) :
    BGApp.blend a 255 fg ≤ BGApp.specLossyPixelValue fg a + 1 ∧
    BGApp.specLossyPixelValue fg a ≤ BGApp.blend a 255 fg + 1 := by
  have hm : fg * a ≤ 65025 := Nat.mul_le_mul hfg ha
  unfold BGApp.blend BGApp.muldiv255 BGApp.specLossyPixelValue
  generalize fg * a = m at hm ⊢
  omega

/-- A `getD` lookup with default 0 in a list of 8-bit values is 8-bit. -/
theorem BGApp.getD_le_255 (p : List Nat) (h : ∀ c ∈ p, c ≤ 255) (i : Nat) :
    p.getD i 0 ≤ 255 := by
  induction p generalizing i with
  | nil => simp [List.getD]
  | cons x xs ih =>
    cases i with
    | zero => simpa using h x (by simp)
    | succ n => simpa using ih (fun c hc => h c (by simp [hc])) n

/-- The download-error text never coincides with the adapter's removal-error
text, whatever the exception messages are (they differ at character 6). -/
theorem BGApp.downloadErr_ne_removalErr (e1 e2 : String) :
    downloadErrMsg e1 ≠ removalErrMsg e2 := by
  obtain ⟨l1⟩ := e1
  obtain ⟨l2⟩ := e2
  intro h
  have h2 := congrArg (fun s => s.data.getD 6 ' ') h
  exact (by decide : ('p' : Char) ≠ 'd') h2

/-- The download-error text never coincides with the text shown when the
adapter returned `None` (they differ at character 0). -/
theorem BGApp.downloadErr_ne_couldNotProcess (e1 : String) :
    downloadErrMsg e1 ≠ couldNotProcessMsg := by
  obtain ⟨l1⟩ := e1
  intro h
  have h2 := congrArg (fun s => s.data.getD 0 ' ') h
  exact (by decide : ('E' : Char) ≠ 'C') h2

/-- Claim C8: the derived download filename is the fixed literal prefix
`bg_removed_`, then the original name's `os.path.splitext` base, a dot, and
the lowercase extension of the chosen format; in particular `photo.jpeg`
gives `bg_removed_photo.png` for PNG and `bg_removed_photo.jpg` for JPG. -/
theorem C8_output_filename :
    outputFilename "photo.jpeg" DownloadFormat.PNG = "bg_removed_photo.png" ∧
    outputFilename "photo.jpeg" DownloadFormat.JPG = "bg_removed_photo.jpg" ∧
    downloadExt DownloadFormat.PNG = "png" ∧
    downloadExt DownloadFormat.JPG = "jpg" ∧
    ∀ (name : String) (fmt : DownloadFormat),
      outputFilename name fmt =
        "bg_removed_" ++ (splitext name).1 ++ "." ++ downloadExt fmt := by
  exact ⟨by decide, by decide, by decide, by decide, fun name fmt => rfl⟩

/-- Claim C9: the MIME type attached to the download is `image/` followed by
the lowercase extension of the chosen format: `image/png` for PNG and
`image/jpg` for JPG. -/
theorem C9_mime_type :
    mimeOf DownloadFormat.PNG = "image/png" ∧
    mimeOf DownloadFormat.JPG = "image/jpg" ∧
    ∀ fmt : DownloadFormat, mimeOf fmt = "image/" ++ downloadExt fmt := by
  exact ⟨by decide, by decide, fun fmt => rfl⟩

/-- Claim C6: the LOSSLESS (PNG) export path hands the processed image to the
lossless PNG codec unmodified, so decoding the encoded output yields an alpha
channel identical to the input's. -/
theorem C6_lossless_preserves_alpha (img : Img) (h : modeHasAlpha img.mode = true) :
    preparedForSave img DownloadFormat.PNG = img ∧
    alphaChannel (pngLoad (pngStore (preparedForSave img DownloadFormat.PNG))) =
      alphaChannel img := by
  exact ⟨rfl, rfl⟩

/-- Witness for C6 at a concrete one-pixel RGBA image. -/
theorem C6_lossless_preserves_alpha_witness :
    modeHasAlpha (Img.mk Mode.RGBA [[9, 8, 7, 6]]).mode = true ∧
    (preparedForSave ⟨Mode.RGBA, [[9, 8, 7, 6]]⟩ DownloadFormat.PNG =
        (⟨Mode.RGBA, [[9, 8, 7, 6]]⟩ : Img) ∧
      alphaChannel (pngLoad (pngStore
          (preparedForSave ⟨Mode.RGBA, [[9, 8, 7, 6]]⟩ DownloadFormat.PNG))) =
        alphaChannel ⟨Mode.RGBA, [[9, 8, 7, 6]]⟩) :=
  ⟨by decide, C6_lossless_preserves_alpha ⟨Mode.RGBA, [[9, 8, 7, 6]]⟩ (by decide)⟩

/-- Claim C1 is wrong about the code: `st.cache_data` excludes parameters
whose names begin with an underscore from the cache key, and the only
parameter is `_image_bytes`, so the memoization key is constant.  Evaluated
here: with an identity capability, the first call on image A computes and
caches A's result; a second call on a different image B returns A's cached
result, although running the adapter body on B gives B's own (different)
result. -/
theorem C1_cache_ignores_second_input :
    cachedRemoveBackground (Capability.available fun i => Except.ok i) none
        ⟨Mode.RGBA, [[0, 0, 0, 255]]⟩ =
      (([], some ⟨Mode.RGBA, [[0, 0, 0, 255]]⟩),
        some ([], some ⟨Mode.RGBA, [[0, 0, 0, 255]]⟩)) ∧
    cachedRemoveBackground (Capability.available fun i => Except.ok i)
        (some ([], some ⟨Mode.RGBA, [[0, 0, 0, 255]]⟩)) ⟨Mode.RGBA, [[9, 9, 9, 9]]⟩ =
      (([], some ⟨Mode.RGBA, [[0, 0, 0, 255]]⟩),
        some ([], some ⟨Mode.RGBA, [[0, 0, 0, 255]]⟩)) ∧
    removeBackgroundFromBytes (Capability.available fun i => Except.ok i)
        ⟨Mode.RGBA, [[9, 9, 9, 9]]⟩ = ([], some ⟨Mode.RGBA, [[9, 9, 9, 9]]⟩) ∧
    (⟨Mode.RGBA, [[0, 0, 0, 255]]⟩ : Img) ≠ ⟨Mode.RGBA, [[9, 9, 9, 9]]⟩ := by
  exact ⟨rfl, rfl, rfl, by decide⟩

/-- Claim C2 is wrong about the code: nothing catches `Image.open`, so a
non-decodable upload (here a text file renamed `.png`) aborts the script run
with an unhandled exception instead of reporting a decode error; no UI state
is produced at all. -/
theorem C2_counterexample :
    runScript (fun _ => none) Capability.unavailable (fun _ _ _ => Except.ok [])
        none (some ⟨"note.png", [110, 111, 116, 101]⟩) DownloadFormat.PNG =
      (Except.error PipelineCrash.decodeException, none) := rfl

/-- Amended C2: for every upload whose bytes do not decode, the decode step's
exception propagates out of the script uncaught — the run halts with no
partial output and no reported message, as a crash rather than a handled
`DecodeError`. -/
theorem C2_decode_failure_crashes (dec : List Nat → Option Img) (cap : Capability)
    (saveFn : Img → SaveFormat → Option Nat → Except String (List Nat))
    (cache : CacheState) (u : Upload) (fmt : DownloadFormat)
    (h : dec u.bytes = none) :
    runScript dec cap saveFn cache (some u) fmt =
      (Except.error PipelineCrash.decodeException, cache) := by
  simp [runScript, h]

/-- Witness for the amended C2 at a concrete non-decoding upload. -/
theorem C2_decode_failure_crashes_witness :
    (fun _ : List Nat => (none : Option Img)) (Upload.mk "x.png" [1]).bytes = none ∧
    runScript (fun _ => none) Capability.unavailable (fun _ _ _ => Except.error "e")
        none (some ⟨"x.png", [1]⟩) DownloadFormat.JPG =
      (Except.error PipelineCrash.decodeException, none) :=
  ⟨rfl, C2_decode_failure_crashes _ _ _ _ _ _ rfl⟩

/-- When `rembg` is unavailable and the cache is empty, a script run over a
decodable upload reports the placeholder error yet continues: both panels are
rendered and the processed panel shows the decoded input unchanged. -/
theorem BGApp.runScript_unavailable_shape (dec : List Nat → Option Img)
    (saveFn : Img → SaveFormat → Option Nat → Except String (List Nat))
    (u : Upload) (fmt : DownloadFormat) (img : Img)
    (h : dec u.bytes = some img) :
    ∃ st cache', runScript dec Capability.unavailable saveFn none (some u) fmt =
        (Except.ok st, cache') ∧
      st.errors.getD 0 "" = placeholderMsg ∧
      st.originalImage = some img ∧ st.processedImage = some img := by
  have hstep : cachedRemoveBackground Capability.unavailable none img =
      (([placeholderMsg], some img), some ([placeholderMsg], some img)) := rfl
  cases h2 : saveFn (preparedForSave img fmt) (saveFormatOf fmt) (jpegQualityOf fmt) with
  | ok bs =>
    exact ⟨⟨[placeholderMsg], [], some img, some img,
      some ⟨bs, outputFilename u.name fmt, mimeOf fmt⟩⟩,
      some ([placeholderMsg], some img),
      by simp [runScript, h, hstep, h2], rfl, rfl, rfl⟩
  | error e =>
    exact ⟨⟨[placeholderMsg, downloadErrMsg e], [], some img, some img, none⟩,
      some ([placeholderMsg], some img),
      by simp [runScript, h, hstep, h2], rfl, rfl, rfl⟩

/-- Claim C4 is wrong about the code: with the capability unavailable, the
fallback reports its error but returns the input image, the truthiness check
`if output_image` passes, and the processed panel IS shown (with a download
button) — the pipeline does not halt.  Evaluated at a concrete run. -/
theorem C4_counterexample :
    (runScript (fun _ => some ⟨Mode.RGBA, [[1, 2, 3, 4]]⟩) Capability.unavailable
        (fun _ _ _ => Except.ok [7]) none (some ⟨"a.png", [9]⟩) DownloadFormat.PNG).1 =
      Except.ok ⟨[placeholderMsg], [], some ⟨Mode.RGBA, [[1, 2, 3, 4]]⟩,
        some ⟨Mode.RGBA, [[1, 2, 3, 4]]⟩,
        some ⟨[7], "bg_removed_a.png", "image/png"⟩⟩ := rfl

/-- Amended C4: when the removal capability is unavailable, the fallback's
distinct error message is reported, but the pipeline continues: the run ends
normally and the processed panel is shown, displaying the input unchanged. -/
theorem C4_unavailable_reported_but_continues (dec : List Nat → Option Img)
    (saveFn : Img → SaveFormat → Option Nat → Except String (List Nat))
    (u : Upload) (fmt : DownloadFormat) (img : Img)
    (h : dec u.bytes = some img) :
    ∃ st cache', runScript dec Capability.unavailable saveFn none (some u) fmt =
        (Except.ok st, cache') ∧
      st.errors.getD 0 "" = placeholderMsg ∧ st.processedImage = some img :=
  match BGApp.runScript_unavailable_shape dec saveFn u fmt img h with
  | ⟨st, cache', heq, herr, _, hproc⟩ => ⟨st, cache', heq, herr, hproc⟩

/-- Witness for the amended C4 at a concrete run. -/
theorem C4_unavailable_reported_but_continues_witness :
    ∃ st cache',
      runScript (fun _ => some ⟨Mode.LA, [[5, 6]]⟩) Capability.unavailable
          (fun _ _ _ => Except.ok [1]) none (some ⟨"b.jpg", [2]⟩) DownloadFormat.JPG =
        (Except.ok st, cache') ∧
      st.errors.getD 0 "" = placeholderMsg ∧ st.processedImage = some ⟨Mode.LA, [[5, 6]]⟩ :=
  C4_unavailable_reported_but_continues _ _ _ _ ⟨Mode.LA, [[5, 6]]⟩ rfl

/-- Claim C10: when the `rembg` import fails, the fallback `remove` reports
an error and returns its argument unchanged (identity), so a run over a fresh
cache shows a processed image identical to the decoded upload. -/
theorem C10_fallback_is_identity :
    (∀ img : Img, fallbackRemove img = ([placeholderMsg], img)) ∧
    ∀ (dec : List Nat → Option Img)
      (saveFn : Img → SaveFormat → Option Nat → Except String (List Nat))
      (u : Upload) (fmt : DownloadFormat) (img : Img),
      dec u.bytes = some img →
      ∃ st cache', runScript dec Capability.unavailable saveFn none (some u) fmt =
          (Except.ok st, cache') ∧
        st.originalImage = some img ∧ st.processedImage = st.originalImage := by
  refine ⟨fun img => rfl, fun dec saveFn u fmt img h => ?_⟩
  obtain ⟨st, cache', heq, -, horig, hproc⟩ :=
    BGApp.runScript_unavailable_shape dec saveFn u fmt img h
  exact ⟨st, cache', heq, horig, hproc.trans horig.symm⟩

/-- Witness for C10 at a concrete run. -/
theorem C10_fallback_is_identity_witness :
    ∃ st cache',
      runScript (fun _ => some ⟨Mode.RGB, [[1, 1, 1]]⟩) Capability.unavailable
          (fun _ _ _ => Except.ok []) none (some ⟨"c.jpeg", [3]⟩) DownloadFormat.PNG =
        (Except.ok st, cache') ∧
      st.originalImage = some ⟨Mode.RGB, [[1, 1, 1]]⟩ ∧
      st.processedImage = st.originalImage :=
  C10_fallback_is_identity.2 _ _ _ _ ⟨Mode.RGB, [[1, 1, 1]]⟩ rfl

/-- Claim C5: every failure the capability raises during the adapter call is
caught at the adapter boundary and becomes the `None` failure result with a
reported message; the capability is applied exactly once per adapter call;
and no removal failure ever escapes as a crash — a run over decodable input
always ends in a rendered UI state. -/
theorem C5_adapter_catches_failures :
    (∀ (f : Img → Except String Img) (img : Img),
        removeBackgroundFromBytes (Capability.available f) img =
          match f img with
          | Except.ok o => ([], some o)
          | Except.error e => ([removalErrMsg e], none)) ∧
    (∀ (cap : Capability) (img : Img), (removalAttempts cap img).length = 1) ∧
    ∀ (dec : List Nat → Option Img) (cap : Capability)
      (saveFn : Img → SaveFormat → Option Nat → Except String (List Nat))
      (cache : CacheState) (u : Upload) (fmt : DownloadFormat) (img : Img),
      dec u.bytes = some img →
      ∃ st cache', runScript dec cap saveFn cache (some u) fmt = (Except.ok st, cache') := by
  refine ⟨fun f img => ?_, fun cap img => ?_, fun dec cap saveFn cache u fmt img h => ?_⟩
  · cases hf : f img with
    | ok o => simp [removeBackgroundFromBytes, removeCall, hf]
    | error e => simp [removeBackgroundFromBytes, removeCall, hf]
  · cases cap <;> rfl
  · simp only [runScript, h]
    split
    · split
      · exact ⟨_, _, rfl⟩
      · exact ⟨_, _, rfl⟩
    · exact ⟨_, _, rfl⟩

/-- Witness for C5 with a capability that raises on a concrete input. -/
theorem C5_adapter_catches_failures_witness :
    ∃ st cache',
      runScript (fun _ => some ⟨Mode.RGB, [[0, 0, 0]]⟩)
          (Capability.available fun _ => Except.error "boom")
          (fun _ _ _ => Except.ok []) none (some ⟨"d.png", [4]⟩) DownloadFormat.PNG =
        (Except.ok st, cache') :=
  C5_adapter_catches_failures.2.2 _ _ _ _ _ _ ⟨Mode.RGB, [[0, 0, 0]]⟩ rfl

/-- Claim C7: when the save/export step fails, its error is reported with a
message that can never coincide with either removal-failure message, the run
still ends normally, the processed panel keeps showing the removed-background
image, and only the download button is missing. -/
theorem C7_encode_failure_reported (dec : List Nat → Option Img) (cap : Capability)
    (saveFn : Img → SaveFormat → Option Nat → Except String (List Nat))
    (cache : CacheState) (u : Upload) (fmt : DownloadFormat)
    (img o : Img) (msgs : List String) (cacheNew : CacheState) (e : String)
    (hdec : dec u.bytes = some img)
    (hstep : cachedRemoveBackground cap cache img = ((msgs, some o), cacheNew))
    (hsave : saveFn (preparedForSave o fmt) (saveFormatOf fmt) (jpegQualityOf fmt) =
      Except.error e) :
    runScript dec cap saveFn cache (some u) fmt =
      (Except.ok ⟨msgs ++ [downloadErrMsg e], [], some img, some o, none⟩, cacheNew) ∧
    (∀ e1 e2, downloadErrMsg e1 ≠ removalErrMsg e2) ∧
    (∀ e1, downloadErrMsg e1 ≠ couldNotProcessMsg) := by
  refine ⟨?_, BGApp.downloadErr_ne_removalErr, BGApp.downloadErr_ne_couldNotProcess⟩
  simp [runScript, hdec, hstep, hsave]

/-- Witness for C7: a concrete run whose save step raises. -/
theorem C7_encode_failure_reported_witness :
    runScript (fun _ => some ⟨Mode.RGBA, [[8, 8, 8, 8]]⟩)
        (Capability.available fun i => Except.ok i)
        (fun _ _ _ => Except.error "disk full") none
        (some ⟨"e.png", [5]⟩) DownloadFormat.PNG =
      (Except.ok ⟨[downloadErrMsg "disk full"], [], some ⟨Mode.RGBA, [[8, 8, 8, 8]]⟩,
          some ⟨Mode.RGBA, [[8, 8, 8, 8]]⟩, none⟩,
        some ([], some ⟨Mode.RGBA, [[8, 8, 8, 8]]⟩)) ∧
    (∀ e1 e2, downloadErrMsg e1 ≠ removalErrMsg e2) ∧
    (∀ e1, downloadErrMsg e1 ≠ couldNotProcessMsg) :=
  C7_encode_failure_reported _ _ _ _ _ _ ⟨Mode.RGBA, [[8, 8, 8, 8]]⟩
    ⟨Mode.RGBA, [[8, 8, 8, 8]]⟩ [] (some ([], some ⟨Mode.RGBA, [[8, 8, 8, 8]]⟩))
    "disk full" rfl rfl rfl

/-- Claim C3 is wrong about the code: the JPEG branch composites over white
only when the mode is exactly RGBA.  An LA-mode image has an alpha channel,
yet it is sent through `convert('RGB')`, which discards alpha without white
compositing: a fully transparent black LA pixel yields output 0 where the
claimed formula gives 255 — far outside rounding tolerance. -/
theorem C3_counterexample :
    modeHasAlpha (Img.mk Mode.LA [[0, 0]]).mode = true ∧
    preparedForSave ⟨Mode.LA, [[0, 0]]⟩ DownloadFormat.JPG = ⟨Mode.RGB, [[0, 0, 0]]⟩ ∧
    specLossyPixelValue 0 0 = 255 ∧
    ¬(specLossyPixelValue 0 0 ≤
        ((preparedForSave ⟨Mode.LA, [[0, 0]]⟩ DownloadFormat.JPG).data.getD 0 []).getD 0 0
          + 1) := by
  exact ⟨rfl, rfl, rfl, by decide⟩

/-- Amended C3: for RGBA-mode images the LOSSY (JPEG) encode flattens onto
opaque white — the output is 3-channel RGB with no alpha, and every channel
of every output pixel is within 1 of `round(fg*a + 255*(1-a))` — at quality
95; every other mode (including LA, which also has alpha) is instead passed
through `convert('RGB')`, yielding 3-channel RGB at the same quality 95. -/
theorem C3_lossy_flattening (img : Img) (hwf : wellFormedImg img) :
    (img.mode = Mode.RGBA →
      preparedForSave img DownloadFormat.JPG = flattenOnWhite img ∧
      (flattenOnWhite img).mode = Mode.RGB ∧
      modeHasAlpha (flattenOnWhite img).mode = false ∧
      ∀ p ∈ img.data, ∀ c < 3,
        (flattenPixelOnWhite p).getD c 0 ≤
            specLossyPixelValue (p.getD c 0) (p.getD 3 0) + 1 ∧
          specLossyPixelValue (p.getD c 0) (p.getD 3 0) ≤
            (flattenPixelOnWhite p).getD c 0 + 1) ∧
    (img.mode ≠ Mode.RGBA →
      preparedForSave img DownloadFormat.JPG = convertRGB img ∧
      (convertRGB img).mode = Mode.RGB ∧
      modeHasAlpha (convertRGB img).mode = false) ∧
    jpegQualityOf DownloadFormat.JPG = some 95 := by
  refine ⟨fun hmode => ⟨?_, rfl, rfl, fun p hp c hc => ?_⟩,
    fun hmode => ⟨?_, rfl, rfl⟩, rfl⟩
  · simp [preparedForSave, saveFormatOf, hmode]
  · have hle : ∀ v ∈ p, v ≤ 255 := (hwf p hp).2
    have hfg : p.getD c 0 ≤ 255 := BGApp.getD_le_255 p hle c
    have ha : p.getD 3 0 ≤ 255 := BGApp.getD_le_255 p hle 3
    have hclose := BGApp.blend_white_close (p.getD c 0) (p.getD 3 0) hfg ha
    match c, hc with
    | 0, _ => exact hclose
    | 1, _ => exact hclose
    | 2, _ => exact hclose
  · simp [preparedForSave, saveFormatOf, hmode]

/-- Witness for the amended C3 at a concrete RGBA image. -/
theorem C3_lossy_flattening_witness :
    wellFormedImg ⟨Mode.RGBA, [[10, 20, 30, 40]]⟩ ∧
    preparedForSave ⟨Mode.RGBA, [[10, 20, 30, 40]]⟩ DownloadFormat.JPG =
      flattenOnWhite ⟨Mode.RGBA, [[10, 20, 30, 40]]⟩ :=
  ⟨by decide,
    ((C3_lossy_flattening ⟨Mode.RGBA, [[10, 20, 30, 40]]⟩ (by decide)).1 rfl).1⟩
